import Mathlib

/-!
Verification of the unity-agent playtesting core against its specification.

The development shallowly embeds the parts of the source that the claims
concern:

* `GameState` with its position history and loop/stuck heuristics
  (src/utils/game_state.py), together with `BaseAgent.detect_anomalies`
  (src/agents/base_agent.py);
* the `RealtimeDetector` stuck/moving state machine
  (src/analytics/realtime_detector.py);
* the `AnalyticsEngine` telemetry store: movement check, stop signal,
  per-agent metrics and difficulty-spike analysis
  (src/analytics/analytics_engine.py);
* the `UnityConnector` request/response correlation table and the
  `get_game_state` timeout fallback (src/unity_integration/unity_connector.py);
* the `AgentManager` result collection (src/agents/agent_manager.py).

Numbers are modelled as rationals.  The source compares Euclidean distances
(`sqrt` of a sum of squares) against the constants 0.1 and 1.0; the embedding
compares the squared distance against the squared constant, which is
equivalent for non-negative quantities and keeps all arithmetic in `ℚ`.
Python dictionaries are modelled as association lists in insertion order,
which is the iteration order Python guarantees.
-/

/-- A 3-D position, the `(x, y, z)` tuples the source passes around. -/
abbrev Pos : Type := ℚ × ℚ × ℚ

/-- Squared Euclidean distance between two positions.  The source computes
`sum((a - b) ** 2 for a, b in zip(p, q)) ** 0.5` and compares it with a
threshold `t ≥ 0`; we keep the square and compare with `t ^ 2`. -/
def dist2 (p q : Pos) : ℚ :=
  (p.1 - q.1) ^ 2 + (p.2.1 - q.2.1) ^ 2 + (p.2.2 - q.2.2) ^ 2

/-- Association-list lookup, the embedding of a Python dict read. -/
def alookup {α β : Type} [DecidableEq α] : List (α × β) → α → Option β
  | [], _ => none
  | (k, v) :: rest, a => if k = a then some v else alookup rest a

/-- Association-list write, the embedding of a Python dict assignment:
overwrite the value if the key is present, otherwise append the key. -/
def aput {α β : Type} [DecidableEq α] (l : List (α × β)) (a : α) (b : β) :
    List (α × β) :=
  if (alookup l a).isSome then
    l.map (fun kv => if kv.1 = a then (a, b) else kv)
  else
    l ++ [(a, b)]

/-!
## GameState (src/utils/game_state.py)

`GameState.__init__` sets `position = (0, 0, 0)`, `previous_positions = []`
and `max_stuck_positions = 10`.  Both `update_from_game` and
`update_from_unity` (and the error fallback in `BaseAgent.update_game_state`)
append the current position to `previous_positions` and pop the front entry
whenever the list exceeds `max_stuck_positions`.  The scalar fields that the
loop/stuck heuristics never read are omitted.
-/

structure GameState where
  position : Pos
  previousPositions : List Pos
  maxStuckPositions : ℕ
deriving DecidableEq

/-- The freshly constructed game state (`GameState.__init__`). -/
def initGameState : GameState :=
  { position := (0, 0, 0), previousPositions := [], maxStuckPositions := 10 }

/-- One position update: the shared tail of `update_from_game` /
`update_from_unity`, recording `p` as the new position and pushing it onto
the bounded history. -/
def pushPosition (s : GameState) (p : Pos) : GameState :=
  let l := s.previousPositions ++ [p]
  { position := p
    previousPositions := if l.length > s.maxStuckPositions then l.tail else l
    maxStuckPositions := s.maxStuckPositions }

/-- `GameState.is_stuck`: needs a full history, then compares the first and
last of the final five positions against a squared distance of `1.0`. -/
def isStuck (s : GameState) : Bool :=
  if s.previousPositions.length < s.maxStuckPositions then false
  else
    let recent := s.previousPositions.drop (s.previousPositions.length - 5)
    match recent.head?, recent.getLast? with
    | some f, some l => decide (dist2 f l < 1)
    | _, _ => false

/-- `GameState.is_infinite_loop`: returns `False` outright while the history
holds fewer than 20 entries; otherwise counts the distinct positions among
the last ten (`len(set(previous_positions[-10:]))`). -/
def isInfiniteLoop (s : GameState) : Bool :=
  if s.previousPositions.length < 20 then false
  else
    let recent := s.previousPositions.drop (s.previousPositions.length - 10)
    decide (recent.dedup.length < 3)

/-- `BaseAgent.detect_anomalies`, restricted to the anomaly types it can
emit: a `softlock` entry when `is_stuck()` holds and an `infinite_loop`
entry when `is_infinite_loop()` holds. -/
def detectAnomalies (s : GameState) : List String :=
  (if isStuck s then ["softlock"] else []) ++
    (if isInfiniteLoop s then ["infinite_loop"] else [])

/-- A whole run of position updates starting from the fresh state. -/
def gsRun (ps : List Pos) : GameState :=
  ps.foldl pushPosition initGameState

/-!
## RealtimeDetector (src/analytics/realtime_detector.py)

`update_agent` registers an unknown agent with stuck duration 0; for a known
agent it compares the new position with the previous sample, accumulates the
elapsed wall time into `stuck_duration` when the displacement is below the
0.1 epsilon and resets the duration to 0 otherwise, always storing the new
sample; it appends a `soft_lock` anomaly and returns `True` exactly when the
updated duration strictly exceeds `stuck_threshold`.
-/

structure RTAgentState where
  position : Pos
  lastUpdate : ℚ
  stuckDuration : ℚ
deriving DecidableEq

/-- A `soft_lock` anomaly record appended by `RealtimeDetector.update_agent`
(the `type` field is always the string `soft_lock` and is left implicit). -/
structure RTAnomaly where
  agentId : String
  position : Pos
  duration : ℚ
  timestamp : ℚ
deriving DecidableEq

structure RealtimeDetector where
  stuckThreshold : ℚ
  agentStates : List (String × RTAgentState)
  anomalies : List RTAnomaly
deriving DecidableEq

/-- `RealtimeDetector.__init__` (the threshold defaults to 30 seconds). -/
def initDetector (threshold : ℚ) : RealtimeDetector :=
  { stuckThreshold := threshold, agentStates := [], anomalies := [] }

/-- The updated stuck duration of `RealtimeDetector.update_agent`: elapsed
wall time accumulates while the displacement from the previous sample stays
below the 0.1 epsilon (squared: 1/100) and resets to 0 otherwise. -/
def durOf (prev : RTAgentState) (p : Pos) (currentTime : ℚ) : ℚ :=
  if dist2 p prev.position < 1 / 100 then
    prev.stuckDuration + (currentTime - prev.lastUpdate)
  else 0

/-- `RealtimeDetector.update_agent`.  The wall-clock reading `time.time()`
is passed in as `currentTime`. -/
def updateAgent (d : RealtimeDetector) (agentId : String) (p : Pos)
    (currentTime : ℚ) : RealtimeDetector × Bool :=
  match alookup d.agentStates agentId with
  | none =>
      ({ d with agentStates := aput d.agentStates agentId ⟨p, currentTime, 0⟩ },
        false)
  | some prev =>
      let dur : ℚ := durOf prev p currentTime
      let d1 := { d with
        agentStates := aput d.agentStates agentId ⟨p, currentTime, dur⟩ }
      if dur > d.stuckThreshold then
        ({ d1 with
            anomalies := d1.anomalies ++ [⟨agentId, p, dur, currentTime⟩] },
          true)
      else (d1, false)

/-- `RealtimeDetector.should_stop_test`: strictly more than `len * 0.5`
agents whose stored stuck duration strictly exceeds the threshold. -/
def rdShouldStopTest (d : RealtimeDetector) : Bool :=
  decide
    (((d.agentStates.countP
          (fun kv => decide (kv.2.stuckDuration > d.stuckThreshold))) : ℚ) >
      (d.agentStates.length : ℚ) * (1 / 2))

/-- State of the detector after feeding it the first `i` samples
`(t 0, p 0), …, (t (i-1), p (i-1))` of a single agent `aid`. -/
def rdState (T : ℚ) (aid : String) (t : ℕ → ℚ) (p : ℕ → Pos) :
    ℕ → RealtimeDetector
  | 0 => initDetector T
  | i + 1 => (updateAgent (rdState T aid t p i) aid (p i) (t i)).1

/-- Whether `update_agent` reports a soft-lock at sample `i`. -/
def rdFlag (T : ℚ) (aid : String) (t : ℕ → ℚ) (p : ℕ → Pos) (i : ℕ) : Bool :=
  (updateAgent (rdState T aid t p i) aid (p i) (t i)).2

/-- Modelled from the claim, not from the code: the accumulated elapsed
time during which the displacement between each sample and the previous
sample stays below the movement epsilon; it is reset to 0 at the first
sample whose displacement from the previous sample is at least epsilon.
Comparisons are on squared distances (epsilon 0.1 squared is 1/100). -/
def specStuckAccum (t : ℕ → ℚ) (p : ℕ → Pos) : ℕ → ℚ
  | 0 => 0
  | i + 1 =>
      if dist2 (p (i + 1)) (p i) < 1 / 100 then
        specStuckAccum t p i + (t (i + 1) - t i)
      else 0

/-!
## AnalyticsEngine (src/analytics/analytics_engine.py)

The telemetry store.  Per-agent action records are the
`(timestamp, action, game_state, agent_id)` tuples of `log_agent_action`;
the snapshot and the redundant agent id are not consulted by any of the
operations verified here and are omitted from the record.  Global events
are the death/retry records of `log_agent_death` / `log_retry`; those are
the only two producers of `global_events`, so the event kind is a
two-constructor type.  Session-relative timestamps
(`time.time() - session_start_time`) are passed in by the caller.
-/

structure ActionRecord where
  ts : ℚ
  action : String
deriving DecidableEq

inductive EventKind
  | death
  | retry
deriving DecidableEq

structure GEvent where
  ts : ℚ
  kind : EventKind
  agentId : ℕ
deriving DecidableEq

structure EngagementRecord where
  ts : ℚ
  action : String
  level : String
deriving DecidableEq

/-- A `soft_lock` anomaly appended by `_check_agent_movement` (its `type`
field is always the string `soft_lock` and is left implicit). -/
structure AEAnomaly where
  agentId : ℕ
  position : Pos
  duration : ℚ
  timestamp : ℚ
deriving DecidableEq

structure AnalyticsEngine where
  agentsData : List (ℕ × List ActionRecord)
  globalEvents : List GEvent
  engagementData : List (ℕ × List EngagementRecord)
  agentPositions : List (ℕ × Pos)
  agentStuckTimes : List (ℕ × ℚ)
  stuckThreshold : ℚ
  anomalies : List AEAnomaly
deriving DecidableEq

/-- `AnalyticsEngine.__init__`: empty stores, stuck threshold 30 seconds. -/
def initEngine : AnalyticsEngine :=
  { agentsData := [], globalEvents := [], engagementData := [],
    agentPositions := [], agentStuckTimes := [], stuckThreshold := 30,
    anomalies := [] }

/-- `AnalyticsEngine._check_agent_movement`.  A first sample registers the
agent.  Afterwards the new sample is compared against the *stored reference
position*, which is rewritten only on the `else` (moved) branch; while the
sample stays within epsilon of the reference, the stuck duration is the
elapsed time since the stored reference timestamp, and a `soft_lock`
anomaly is appended whenever it strictly exceeds the threshold.  The source
indexes `agent_stuck_times[agent_id]` directly; the two tables always hold
the same keys, and the embedding reads the entry with a default of 0. -/
def checkAgentMovement (e : AnalyticsEngine) (aid : ℕ) (p : Pos) (ts : ℚ) :
    AnalyticsEngine :=
  match alookup e.agentPositions aid with
  | none =>
      { e with
        agentPositions := aput e.agentPositions aid p
        agentStuckTimes := aput e.agentStuckTimes aid ts }
  | some prevPos =>
      if dist2 p prevPos < 1 / 100 then
        let stuckDuration := ts - (alookup e.agentStuckTimes aid).getD 0
        if stuckDuration > e.stuckThreshold then
          { e with anomalies := e.anomalies ++ [⟨aid, p, stuckDuration, ts⟩] }
        else e
      else
        { e with
          agentPositions := aput e.agentPositions aid p
          agentStuckTimes := aput e.agentStuckTimes aid ts }

/-- `AnalyticsEngine.should_stop_test`, with the session-relative call time
passed in: counts the agents whose `current_time - stuck_time` strictly
exceeds the threshold and compares against `len(agent_positions) * 0.5`. -/
def shouldStopTest (e : AnalyticsEngine) (currentTime : ℚ) : Bool :=
  if e.agentPositions = [] then false
  else
    decide
      (((e.agentStuckTimes.countP
            (fun kv => decide (currentTime - kv.2 > e.stuckThreshold))) : ℚ) >
        (e.agentPositions.length : ℚ) * (1 / 2))

/-- The metrics dictionary returned by `AnalyticsEngine.get_agent_metrics`. -/
structure AgentMetrics where
  totalActions : ℕ
  highEngagementActions : ℕ
  engagementRate : ℚ
  deaths : ℕ
  retries : ℕ
  totalTime : ℚ
  actionsPerSecond : ℚ
deriving DecidableEq

/-- `AnalyticsEngine.get_agent_metrics`. -/
def getAgentMetrics (e : AnalyticsEngine) (aid : ℕ) : AgentMetrics :=
  let agentData := (alookup e.agentsData aid).getD []
  let engagements := (alookup e.engagementData aid).getD []
  let totalActions := agentData.length
  let highEngagement :=
    (engagements.filter (fun r => r.level = "high")).length
  let deaths :=
    (e.globalEvents.filter
      (fun ev => decide (ev.kind = EventKind.death ∧ ev.agentId = aid))).length
  let retries :=
    (e.globalEvents.filter
      (fun ev => decide (ev.kind = EventKind.retry ∧ ev.agentId = aid))).length
  let engagementRate : ℚ := (highEngagement : ℚ) / ((max 1 totalActions : ℕ) : ℚ)
  let totalTime : ℚ :=
    match agentData.head?, agentData.getLast? with
    | some first, some last => last.ts - first.ts
    | _, _ => 0
  let actionsPerSecond : ℚ :=
    if totalTime > 0 then (totalActions : ℚ) / max 1 totalTime else 0
  ⟨totalActions, highEngagement, engagementRate, deaths, retries, totalTime,
    actionsPerSecond⟩

/-!
## Difficulty-spike analysis (`AnalyticsEngine.analyze_difficulty_spikes`)

Events are bucketed by `int(timestamp // 30)`.  The `windows` dict is built
in first-occurrence order; each entry counts the retry and death events of
its window.  `all_rates` are the per-window totals, `avg_rate` their mean,
and a window is reported when its total strictly exceeds `avg_rate * 1.5`,
with `severity = total / max(1, avg_rate)` and
`time_range = (window_id * 30, window_id * 30 + 30)` (integers, since the
window id and the window size are Python ints).
-/

/-- The window id `int(timestamp // 30)`: floor division.  For a rational
`ts = num / den` this is `⌊num / (den * 30)⌋` computed on integers (see
`windowOf_eq_floor`); the source's `//` also rounds toward negative
infinity. -/
def windowOf (ts : ℚ) : ℤ :=
  Int.fdiv ts.num (ts.den * 30)

/-- Keeping the first-seen order of window keys, the Python dict insertion
order of the `windows` dictionary. -/
def insertWindow (ks : List ℤ) (w : ℤ) : List ℤ :=
  if w ∈ ks then ks else ks ++ [w]

/-- The window keys of the event log in first-occurrence order.  Every
global event is a retry or a death, so each event inserts its window. -/
def windowKeys (l : List GEvent) : List ℤ :=
  l.foldl (fun ks e => insertWindow ks (windowOf e.ts)) []

/-- Retry count of a window. -/
def retriesIn (l : List GEvent) (w : ℤ) : ℕ :=
  l.countP (fun e => decide (e.kind = EventKind.retry ∧ windowOf e.ts = w))

/-- Death count of a window. -/
def deathsIn (l : List GEvent) (w : ℤ) : ℕ :=
  l.countP (fun e => decide (e.kind = EventKind.death ∧ windowOf e.ts = w))

/-- The per-window total `retries + deaths`. -/
def rateIn (l : List GEvent) (w : ℤ) : ℕ :=
  retriesIn l w + deathsIn l w

/-- One reported difficulty spike
`{time_range, retry_count, death_count, severity}`. -/
structure DifficultySpike where
  startTime : ℤ
  endTime : ℤ
  retryCount : ℕ
  deathCount : ℕ
  severity : ℚ
deriving DecidableEq

/-- `AnalyticsEngine.analyze_difficulty_spikes` as a function of the
accumulated global event log. -/
def difficultySpikes (l : List GEvent) : List DifficultySpike :=
  let ks := windowKeys l
  if ks = [] then []
  else
    let avg : ℚ := ((ks.map (fun w => (rateIn l w : ℚ))).sum) / (ks.length : ℚ)
    (ks.filter (fun w => decide ((rateIn l w : ℚ) > avg * (3 / 2)))).map
      (fun w =>
        ⟨w * 30, w * 30 + 30, retriesIn l w, deathsIn l w,
          (rateIn l w : ℚ) / max 1 avg⟩)

/-- Modelled from the spec words for C7: the set of non-empty windows. -/
def specWindows (l : List GEvent) : Finset ℤ :=
  (l.map (fun e => windowOf e.ts)).toFinset

/-- Modelled from the spec words for C7: the mean of `retries + deaths`
over the non-empty windows only. -/
def specMean (l : List GEvent) : ℚ :=
  (∑ w ∈ specWindows l, (rateIn l w : ℚ)) / ((specWindows l).card : ℚ)

/-!
## UnityConnector (src/unity_integration/unity_connector.py)

`get_game_state` and `get_level_data` build a request id from the wall
clock (`f"req_{int(time.time() * 1000000)}"`), store a callback appending
to a fresh per-call response queue under that id in `response_callbacks`,
send the request, and poll the queue until `self.timeout` (default 30s)
elapses.  The receive loop `_listen_for_messages` matches an inbound
message carrying an `id` against `response_callbacks`, invokes the stored
callback and deletes the entry; a message whose id is not pending falls
through to the type handlers and leaves the table untouched.  Neither
`get_game_state` nor `get_level_data` ever deletes its entry — in
particular not on the timeout path.

A message's `data` payload is modelled as the game state it carries
(`none` when the `data` key is absent); the remaining wire fields are not
consulted by the correlation logic.
-/

/-- The game-state dictionary of the wire protocol and of
`_get_default_game_state`. -/
structure UnityState where
  position : Pos
  health : ℚ
  inCombat : Bool
  currentObjective : Option String
  levelProgress : ℚ
  timeInLevel : ℚ
  isDead : Bool
  currentArea : String
  puzzleActive : Bool
deriving DecidableEq

/-- `UnityConnector._get_default_game_state`; `time_in_level` is the wall
clock at construction time and is the only non-fixed field. -/
def defaultGameState (now : ℚ) : UnityState :=
  { position := (0, 0, 0), health := 100, inCombat := false,
    currentObjective := none, levelProgress := 0, timeInLevel := now,
    isDead := false, currentArea := "unknown", puzzleActive := false }

/-- The integer part of `time.time() * 1000000`, the microsecond clock
reading used to build a request id (the clock is non-negative, so Python's
truncation agrees with the floor). -/
def requestIdNum (t : ℚ) : ℤ :=
  Int.fdiv (t.num * 1000000) t.den

/-- The request id `f"req_{int(time.time() * 1000000)}"` built at wall
clock `t`. -/
def requestIdAt (t : ℚ) : String :=
  "req_" ++ toString (requestIdNum t)

structure WireMsg where
  id : String
  data : Option UnityState
deriving DecidableEq

/-- The connector's correlation state: the `response_callbacks` table
(request id, registering caller) and, for observation, the messages each
caller's callback has appended to its queue. -/
structure ConnState where
  pending : List (String × ℕ)
  delivered : List (ℕ × WireMsg)
deriving DecidableEq

/-- `self.response_callbacks[request_id] = callback` in `get_game_state` /
`get_level_data`: a plain dict assignment, so a colliding request id
overwrites the previous caller's entry.  This is the only effect either
function ever has on the table: the timeout path returns the default
state and leaves the entry in place. -/
def registerRequest (s : ConnState) (rid : String) (caller : ℕ) : ConnState :=
  { s with pending := aput s.pending rid caller }

/-- `_listen_for_messages` handling one inbound message that carries an
`id`: if the id is pending, the stored callback appends the message to the
registering caller's queue and the entry is deleted (`del
self.response_callbacks[message['id']]`); otherwise the table is left
untouched. -/
def processMsg (s : ConnState) (m : WireMsg) : ConnState :=
  match alookup s.pending m.id with
  | some c =>
      { pending := s.pending.filter (fun kv => decide (kv.1 ≠ m.id))
        delivered := s.delivered ++ [(c, m)] }
  | none => s

/-- An event at the correlation table: a caller registering a request id,
or the receive loop processing an inbound message. -/
inductive ConnEvent
  | register (rid : String) (caller : ℕ)
  | inbound (m : WireMsg)
deriving DecidableEq

def connStep (s : ConnState) : ConnEvent → ConnState
  | .register rid c => registerRequest s rid c
  | .inbound m => processMsg s m

/-- A run of the correlation machinery from the empty table. -/
def connRun (evs : List ConnEvent) : ConnState :=
  evs.foldl connStep ⟨[], []⟩

/-- The request ids registered along a trace. -/
def regIds (evs : List ConnEvent) : List String :=
  evs.filterMap
    (fun ev =>
      match ev with
      | .register rid _ => some rid
      | .inbound _ => none)

/-- The wait loop of `get_game_state`, as a function of the call time, the
configured timeout, whether the send succeeded, and the deliveries the
receive loop made to this call's response queue (delivery time paired with
the message).  The loop takes `response_queue[0]` — the first delivered
response — as soon as the queue is non-empty and the deadline has not
passed, returning its `data` payload, or the default state when the
payload is absent; a send failure or an empty queue up to the deadline
yields the default state. -/
def getGameStateResult (t timeout : ℚ) (sendOk : Bool)
    (queue : List (ℚ × WireMsg)) : UnityState :=
  if sendOk = false then defaultGameState t
  else
    match queue.head? with
    | some (ta, m) =>
        if ta < t + timeout then
          match m.data with
          | some d => d
          | none => defaultGameState t
        else defaultGameState t
    | none => defaultGameState t

/-!
## AgentManager (src/agents/agent_manager.py)

`run_playtesting` starts one thread per configured agent
(`initialize_agents` creates agents with ids `0 … N-1`), lets each run
`BaseAgent.run`, and finally collects results.  Inside `BaseAgent.run`, an
exception during one iteration is caught, recorded as an error entry and
the loop continues; an exception escaping the loop stops only that agent.
Concurrency is abstracted by giving every agent its own schedule of
per-iteration outcomes.

`BaseAgent.get_results` is *not* a total read: it calls
`AnalyticsEngine.get_agent_metrics`, whose time-metrics step evaluates
`agent_data[0][0]` and `agent_data[-1][0]` on the raw `agents_data` store.
That store has two producers with different record shapes:
`log_agent_action` appends compact tuples
`(timestamp, action, game_state, agent_id)` — the shape the comment inside
`get_agent_metrics` asserts — while `log_progression` appends dictionaries
`{timestamp, action, agent_id, event_type}`, and `execute_action` calls
`log_progression` for every executed `move_forward`/`explore` action.
Indexing a dictionary with `0` raises `KeyError`, so `get_results` raises
for any agent whose store starts or ends with a progression record.  On
the success path `run_playtesting` first fills `self.results` inside its
`finally` block, substituting an empty result for a raising agent, but it
then re-collects with `[agent.get_results() for agent in self.agents]`
*outside* any `try`/`except` (agent_manager.py line 117), so a single
raising agent makes the whole call raise; `none` models that raise.
-/

/-- The outcome of one iteration of an agent's loop: a normally selected
action, an exception caught inside the iteration (`AgentExecutionError`),
or an exception escaping the loop (`AgentFatalError`). -/
inductive TickOutcome
  | ok (action : String)
  | err (msg : String)
  | fatal (msg : String)
deriving DecidableEq

/-- One entry of an agent's accumulated action log: a regular action
record or an error record. -/
inductive LogEntry
  | act (action : String)
  | failure (msg : String)
deriving DecidableEq

/-- `BaseAgent.run`: append an action record on a normal iteration, append
an error record and continue on a caught per-iteration exception, and stop
the loop (recording nothing further) on a fatal exception. -/
def agentLoop : List TickOutcome → List LogEntry
  | [] => []
  | .ok a :: rest => .act a :: agentLoop rest
  | .err m :: rest => .failure m :: agentLoop rest
  | .fatal _ :: _ => []

/-- The per-agent portion of `get_results` that `run_playtesting` collects:
the agent id and the accumulated action log. -/
structure AgentResult where
  agentId : ℕ
  actions : List LogEntry
deriving DecidableEq

/-- A record of the engine's per-agent `agents_data` store: a compact
tuple appended by `log_agent_action`, or a progression dictionary appended
by `log_progression` (payload fields beyond the timestamp and action label
are not consulted by the operations verified here). -/
inductive StoreRecord
  | tupleRec (ts : ℚ) (action : String)
  | dictRec (ts : ℚ) (action : String)
deriving DecidableEq

/-- `record[0]` on a store record: the first element of a compact tuple;
`none` models the `KeyError` raised when a progression dictionary — which
has no key `0` — is indexed with `0`. -/
def storeItem0 : StoreRecord → Option ℚ
  | .tupleRec ts _ => some ts
  | .dictRec _ _ => none

/-- The time-metrics step of `get_agent_metrics` on the raw store:
`total_time = agent_data[-1][0] - agent_data[0][0]` when the store is
non-empty and 0 otherwise; `none` models the `KeyError` when the first or
last record is a progression dictionary. -/
def metricsTotalTime (agentData : List StoreRecord) : Option ℚ :=
  match agentData.head?, agentData.getLast? with
  | some first, some last =>
      match storeItem0 first, storeItem0 last with
      | some ts0, some ts1 => some (ts1 - ts0)
      | _, _ => none
  | _, _ => some 0

/-- The `agents_data` records one agent's run appends to the engine:
`execute_action` calls `log_progression` — appending a progression
dictionary stamped with the session clock — for every executed
`move_forward`/`explore` action; other actions write other stores, a
caught per-iteration error logs nothing here, and a fatal exception stops
the loop. -/
def progressionLog (clock : ℕ → ℚ) : ℕ → List TickOutcome → List StoreRecord
  | _, [] => []
  | i, .ok a :: rest =>
      (if a = "move_forward" ∨ a = "explore" then
          [StoreRecord.dictRec (clock i) a]
        else []) ++ progressionLog clock (i + 1) rest
  | i, .err _ :: rest => progressionLog clock (i + 1) rest
  | _, .fatal _ :: _ => []

/-- `BaseAgent.get_results`: packages the agent's accumulated action log
together with its engagement metrics; `none` models the `KeyError`
propagating out of `get_agent_metrics`. -/
def getResultsOf (agentId : ℕ) (log : List LogEntry)
    (store : List StoreRecord) : Option AgentResult :=
  match metricsTotalTime store with
  | some _ => some ⟨agentId, log⟩
  | none => none

/-- The final collection `[agent.get_results() for agent in self.agents]`:
the comprehension raises (`none`) as soon as any `get_results()` raises,
and otherwise yields one entry per agent. -/
def collectResults : List (Option AgentResult) → Option (List AgentResult)
  | [] => some []
  | none :: _ => none
  | some r :: rest =>
      match collectResults rest with
      | some rs => some (r :: rs)
      | none => none

/-- `AgentManager.run_playtesting` for `N = schedules.length` configured
agents, on a run whose orchestration body completes normally: agent `i`
runs schedule `i`, and the final collection at agent_manager.py line 117 —
outside any `try`/`except`, after the `finally` block's substitutions have
been overwritten — re-reads every agent's results through `get_results`. -/
def runPlaytesting (clock : ℕ → ℚ) (schedules : List (List TickOutcome)) :
    Option (List AgentResult) :=
  collectResults
    ((List.range schedules.length).map
      (fun i =>
        getResultsOf i (agentLoop (schedules.getD i []))
          (progressionLog clock 0 (schedules.getD i []))))

/-- Sample times of the C4 counterexample run: seconds 0, 1 and 31. -/
def ceT : ℕ → ℚ
  | 0 => 0
  | 1 => 1
  | _ + 2 => 31

/-- Sample positions of the C4 counterexample run: the origin, then
`x = 0.05`, then `x = -0.05`.  Every sample stays within 0.05 of the
origin, but the displacement between samples 1 and 2 is 0.1 — exactly the
movement epsilon, so the claim-side stuck time resets there. -/
def ceP : ℕ → Pos
  | 0 => (0, 0, 0)
  | 1 => (1 / 20, 0, 0)
  | _ + 2 => (-(1 / 20), 0, 0)

/-- The analytics engine after `_check_agent_movement` has processed the
three counterexample samples for agent 0. -/
def ceEngine : AnalyticsEngine :=
  checkAgentMovement
    (checkAgentMovement (checkAgentMovement initEngine 0 (ceP 0) (ceT 0)) 0
      (ceP 1) (ceT 1))
    0 (ceP 2) (ceT 2)

/-- Engine for the C6 counterexample: agent 0 has two action records half
a second apart and nothing else. -/
def metricsEngine : AnalyticsEngine :=
  ⟨[(0, [⟨0, "move_forward"⟩, ⟨1 / 2, "jump"⟩])], [], [], [], [], 30, []⟩

/-- The C7 scenario log: 12 events (10 retries, 2 deaths) in window
`[0, 30)` and 2 events (1 retry, 1 death) in window `[30, 60)`. -/
def scenarioEvents : List GEvent :=
  List.replicate 10 ⟨5, .retry, 0⟩ ++ List.replicate 2 ⟨25, .death, 0⟩ ++
    [⟨35, .retry, 0⟩, ⟨55, .death, 0⟩]

/-- First event log of the C8 counterexample: windows 0 and 1 hold four
retries each and windows 2 and 3 one retry each (mean 5/2, threshold 15/4,
so windows 0 and 1 are both flagged), with window 0 seen first. -/
def permEventsA : List GEvent :=
  List.replicate 4 ⟨1, .retry, 0⟩ ++ List.replicate 4 ⟨31, .retry, 0⟩ ++
    [⟨61, .retry, 0⟩, ⟨91, .retry, 0⟩]

/-- Second event log of the C8 counterexample: the same multiset of events
as `permEventsA`, but with one window-1 event moved to the front, so
window 1 is seen first. -/
def permEventsB : List GEvent :=
  ⟨31, .retry, 0⟩ ::
    (List.replicate 4 ⟨1, .retry, 0⟩ ++ List.replicate 3 ⟨31, .retry, 0⟩ ++
      [⟨61, .retry, 0⟩, ⟨91, .retry, 0⟩])

lemma pushPosition_bound (s : GameState) (p : Pos)
    (h : s.previousPositions.length ≤ s.maxStuckPositions) :
    (pushPosition s p).previousPositions.length ≤ s.maxStuckPositions ∧
      (pushPosition s p).maxStuckPositions = s.maxStuckPositions := by
  refine ⟨?_, rfl⟩
  simp only [pushPosition]
  split
  · next hgt =>
    simp only [List.length_tail, List.length_append, List.length_singleton]
    omega
  · next hle =>
    simp only [List.length_append, List.length_singleton] at *
    omega

lemma foldl_pushPosition_bound (ps : List Pos) :
    ∀ s : GameState, s.previousPositions.length ≤ s.maxStuckPositions →
      (ps.foldl pushPosition s).previousPositions.length ≤
          (ps.foldl pushPosition s).maxStuckPositions ∧
        (ps.foldl pushPosition s).maxStuckPositions = s.maxStuckPositions := by
  induction ps with
  | nil => intro s h; exact ⟨h, rfl⟩
  | cons p rest ih =>
    intro s h
    have hstep := pushPosition_bound s p h
    have := ih (pushPosition s p) (hstep.2 ▸ hstep.1)
    exact ⟨this.1, this.2.trans hstep.2⟩

lemma gsRun_history_le (ps : List Pos) :
    (gsRun ps).previousPositions.length ≤ 10 := by
  have h := foldl_pushPosition_bound ps initGameState (by simp [initGameState])
  have h10 : (gsRun ps).maxStuckPositions = 10 := h.2
  have h1 : (gsRun ps).previousPositions.length ≤ (gsRun ps).maxStuckPositions := h.1
  omega

lemma isInfiniteLoop_gsRun_false (ps : List Pos) :
    isInfiniteLoop (gsRun ps) = false := by
  have h := gsRun_history_le ps
  simp only [isInfiniteLoop]
  rw [if_pos (by omega)]

lemma updateAgent_empty (T : ℚ) (an : List RTAnomaly) (aid : String)
    (p : Pos) (ct : ℚ) :
    updateAgent ⟨T, [], an⟩ aid p ct = (⟨T, [(aid, ⟨p, ct, 0⟩)], an⟩, false) := by
  simp [updateAgent, alookup, aput]

lemma updateAgent_found (d : RealtimeDetector) (aid : String)
    (st : RTAgentState) (hs : d.agentStates = [(aid, st)]) (p : Pos) (ct : ℚ) :
    (updateAgent d aid p ct).1.agentStates = [(aid, ⟨p, ct, durOf st p ct⟩)] ∧
      (updateAgent d aid p ct).1.stuckThreshold = d.stuckThreshold ∧
      (updateAgent d aid p ct).1.anomalies =
        d.anomalies ++
          (if durOf st p ct > d.stuckThreshold then
              [⟨aid, p, durOf st p ct, ct⟩]
            else []) ∧
      (updateAgent d aid p ct).2 = decide (durOf st p ct > d.stuckThreshold) := by
  by_cases hT : durOf st p ct > d.stuckThreshold <;>
    simp [updateAgent, hs, alookup, aput, hT]

lemma rdState_inv (T : ℚ) (aid : String) (t : ℕ → ℚ) (p : ℕ → Pos) :
    ∀ i : ℕ,
      (rdState T aid t p (i + 1)).agentStates =
          [(aid, ⟨p i, t i, specStuckAccum t p i⟩)] ∧
        (rdState T aid t p (i + 1)).stuckThreshold = T := by
  intro i
  induction i with
  | zero =>
      show ((updateAgent (initDetector T) aid (p 0) (t 0)).1.agentStates = _) ∧ _
      rw [show initDetector T = ⟨T, [], []⟩ from rfl, updateAgent_empty]
      exact ⟨rfl, rfl⟩
  | succ n ih =>
      have hfound := updateAgent_found (rdState T aid t p (n + 1)) aid
        ⟨p n, t n, specStuckAccum t p n⟩ ih.1 (p (n + 1)) (t (n + 1))
      have hdur : durOf ⟨p n, t n, specStuckAccum t p n⟩ (p (n + 1)) (t (n + 1)) =
          specStuckAccum t p (n + 1) := rfl
      refine ⟨?_, ?_⟩
      · show (updateAgent (rdState T aid t p (n + 1)) aid (p (n + 1))
            (t (n + 1))).1.agentStates = _
        rw [hfound.1, hdur]
      · show (updateAgent (rdState T aid t p (n + 1)) aid (p (n + 1))
            (t (n + 1))).1.stuckThreshold = T
        rw [hfound.2.1, ih.2]

lemma rdFlag_zero (T : ℚ) (aid : String) (t : ℕ → ℚ) (p : ℕ → Pos) :
    rdFlag T aid t p 0 = false := by
  show (updateAgent (initDetector T) aid (p 0) (t 0)).2 = false
  rw [show initDetector T = ⟨T, [], []⟩ from rfl, updateAgent_empty]

lemma rdFlag_succ (T : ℚ) (aid : String) (t : ℕ → ℚ) (p : ℕ → Pos) (i : ℕ) :
    rdFlag T aid t p (i + 1) = decide (specStuckAccum t p (i + 1) > T) := by
  have hinv := rdState_inv T aid t p i
  have hfound := updateAgent_found (rdState T aid t p (i + 1)) aid
    ⟨p i, t i, specStuckAccum t p i⟩ hinv.1 (p (i + 1)) (t (i + 1))
  have hdur : durOf ⟨p i, t i, specStuckAccum t p i⟩ (p (i + 1)) (t (i + 1)) =
      specStuckAccum t p (i + 1) := rfl
  show (updateAgent (rdState T aid t p (i + 1)) aid (p (i + 1))
      (t (i + 1))).2 = _
  rw [hfound.2.2.2, hdur, hinv.2]

lemma rdState_anomalies_succ (T : ℚ) (aid : String) (t : ℕ → ℚ)
    (p : ℕ → Pos) (i : ℕ) :
    (rdState T aid t p (i + 2)).anomalies =
      (rdState T aid t p (i + 1)).anomalies ++
        (if specStuckAccum t p (i + 1) > T then
            [⟨aid, p (i + 1), specStuckAccum t p (i + 1), t (i + 1)⟩]
          else []) := by
  have hinv := rdState_inv T aid t p i
  have hfound := updateAgent_found (rdState T aid t p (i + 1)) aid
    ⟨p i, t i, specStuckAccum t p i⟩ hinv.1 (p (i + 1)) (t (i + 1))
  have hdur : durOf ⟨p i, t i, specStuckAccum t p i⟩ (p (i + 1)) (t (i + 1)) =
      specStuckAccum t p (i + 1) := rfl
  show (updateAgent (rdState T aid t p (i + 1)) aid (p (i + 1))
      (t (i + 1))).1.anomalies = _
  rw [hfound.2.2.1, hdur, hinv.2]

lemma infinite_loop_not_mem (s : GameState) (h : isInfiniteLoop s = false) :
    "infinite_loop" ∉ detectAnomalies s := by
  cases hb : isStuck s <;> simp [detectAnomalies, hb, h]

/-- C1: the spec promises that an `infinite_loop` AnomalyRecord is emitted
whenever the 20 most recent position samples hold fewer than 3 distinct
positions, and in particular that some sample sequence triggers it.  The
code can never emit one: the history is capped at `max_stuck_positions = 10`
entries by every updater, while `is_infinite_loop` returns `False` whenever
the history holds fewer than 20 entries (and would then only inspect the
last 10).  After any sequence of position updates the history length is at
most 10, `is_infinite_loop` is `False`, and `detect_anomalies` never emits
`infinite_loop` — also on the failing input of 20 identical samples, whose
20 most recent samples hold exactly one distinct position. -/
theorem infinite_loop_never_fires :
    (∀ ps : List Pos,
        (gsRun ps).previousPositions.length ≤ 10 ∧
          isInfiniteLoop (gsRun ps) = false ∧
          "infinite_loop" ∉ detectAnomalies (gsRun ps)) ∧
      ((List.replicate 20 (((0 : ℚ), (0 : ℚ), (0 : ℚ)) : Pos)).dedup.length < 3 ∧
        "infinite_loop" ∉
          detectAnomalies
            (gsRun (List.replicate 20 (((0 : ℚ), (0 : ℚ), (0 : ℚ)) : Pos)))) := by
  refine ⟨fun ps => ⟨gsRun_history_le ps, isInfiniteLoop_gsRun_false ps,
    infinite_loop_not_mem _ (isInfiniteLoop_gsRun_false ps)⟩, ?_, ?_⟩
  · decide
  · exact infinite_loop_not_mem _ (isInfiniteLoop_gsRun_false _)

/-- C4 (amended): for `RealtimeDetector.update_agent` the claim holds as
stated: feeding one agent's samples `(t i, p i)`, the first sample never
flags; sample `i + 1` flags a `soft_lock` — and appends the anomaly record —
exactly when the claim-side accumulated sub-epsilon time
`specStuckAccum t p (i + 1)` strictly exceeds the threshold, and the stored
stuck duration always equals that accumulated time (so it is 0 exactly from
the first sample whose displacement from the previous sample is ≥ epsilon).
`AnalyticsEngine._check_agent_movement` does not satisfy the claim; see the
counterexample. -/
theorem soft_lock_iff_accumulated (T : ℚ) (aid : String) (t : ℕ → ℚ)
    (p : ℕ → Pos) :
    rdFlag T aid t p 0 = false ∧
      (∀ i : ℕ,
        rdFlag T aid t p (i + 1) = decide (specStuckAccum t p (i + 1) > T)) ∧
      (∀ i : ℕ,
        (rdState T aid t p (i + 1)).agentStates =
          [(aid, ⟨p i, t i, specStuckAccum t p i⟩)]) ∧
      (∀ i : ℕ,
        (rdState T aid t p (i + 2)).anomalies =
          (rdState T aid t p (i + 1)).anomalies ++
            (if specStuckAccum t p (i + 1) > T then
                [⟨aid, p (i + 1), specStuckAccum t p (i + 1), t (i + 1)⟩]
              else [])) :=
  ⟨rdFlag_zero T aid t p, fun i => rdFlag_succ T aid t p i,
    fun i => (rdState_inv T aid t p i).1,
    fun i => rdState_anomalies_succ T aid t p i⟩

lemma collectResults_length :
    ∀ (l : List (Option AgentResult)) (res : List AgentResult),
      collectResults l = some res → res.length = l.length := by
  intro l
  induction l with
  | nil =>
      intro res h
      rw [collectResults] at h
      obtain rfl := Option.some.inj h
      rfl
  | cons o rest ih =>
      intro res h
      cases o with
      | none =>
          rw [collectResults] at h
          exact absurd h (by simp)
      | some r =>
          rw [collectResults] at h
          cases hrec : collectResults rest with
          | none =>
              rw [hrec] at h
              exact absurd h (by simp)
          | some rs =>
              rw [hrec] at h
              obtain rfl := Option.some.inj h
              rw [List.length_cons, List.length_cons, ih rs hrec]

/-- C3: the claim — and the spec's unconditional one-result-per-agent
contract — promises exactly `N` result entries for every number of failing
agents, with substitutes for unretrievable results.  The code breaks this
on ordinary runs with *zero* failing agents: a single configured agent
that executes one `move_forward` action gets a progression dictionary as
its store's only record, `get_agent_metrics` raises `KeyError` on
`agent_data[0][0]`, and the final collection — placed outside the
`try`/`except`/`finally` machinery that was meant to guarantee the
contract — propagates the exception, so `run_playtesting` raises and
returns no list at all (first conjunct, for every session clock).  The
second conjunct isolates the cause: the time-metrics step fails on any
store whose first record is a progression dictionary.  The third conjunct
shows the contract holds exactly when the collection returns at all:
whenever `run_playtesting` does return a list, it has one entry per
configured agent. -/
theorem run_playtesting_raises_on_progression :
    (∀ clock : ℕ → ℚ,
        runPlaytesting clock [[TickOutcome.ok "move_forward"]] = none) ∧
      (∀ (ts : ℚ) (a : String) (rest : List StoreRecord),
        metricsTotalTime (StoreRecord.dictRec ts a :: rest) = none) ∧
      (∀ (clock : ℕ → ℚ) (schedules : List (List TickOutcome))
          (results : List AgentResult),
        runPlaytesting clock schedules = some results →
          results.length = schedules.length) := by
  refine ⟨fun clock => rfl, fun ts a rest => rfl, ?_⟩
  intro clock schedules results h
  rw [runPlaytesting] at h
  have hlen := collectResults_length _ _ h
  simpa using hlen

lemma alookup_filter_ne {β : Type} (l : List (String × β)) (a : String) :
    alookup (l.filter (fun kv => decide (kv.1 ≠ a))) a = none := by
  induction l with
  | nil => rfl
  | cons kv rest ih =>
      by_cases h : kv.1 = a
      · simpa [List.filter, h] using ih
      · simpa [List.filter, h, alookup] using ih

lemma alookup_overwrite {α β : Type} [DecidableEq α] (a : α) (b : β) :
    ∀ l : List (α × β), (alookup l a).isSome = true →
      alookup (l.map (fun kv => if kv.1 = a then (a, b) else kv)) a = some b := by
  intro l
  induction l with
  | nil => intro h; simp [alookup] at h
  | cons kv rest ih =>
      intro h
      by_cases hk : kv.1 = a
      · rw [List.map_cons, if_pos hk]
        simp [alookup]
      · rw [List.map_cons, if_neg hk]
        have h2 : (alookup rest a).isSome = true := by
          simpa [alookup, hk] using h
        simpa [alookup, hk] using ih h2

lemma alookup_extend {α β : Type} [DecidableEq α] (a : α) (b : β) :
    ∀ l : List (α × β), ¬ (alookup l a).isSome = true →
      alookup (l ++ [(a, b)]) a = some b := by
  intro l
  induction l with
  | nil => intro _; simp [alookup]
  | cons kv rest ih =>
      intro h
      by_cases hk : kv.1 = a
      · simp [alookup, hk] at h
      · have h2 : ¬ (alookup rest a).isSome = true := by
          simpa [alookup, hk] using h
        simpa [alookup, hk] using ih h2

lemma alookup_aput {α β : Type} [DecidableEq α] (l : List (α × β)) (a : α)
    (b : β) : alookup (aput l a b) a = some b := by
  unfold aput
  by_cases hmem : (alookup l a).isSome = true
  · rw [if_pos hmem]
    exact alookup_overwrite a b l hmem
  · rw [if_neg hmem]
    exact alookup_extend a b l hmem

/-- C9 (amended): the correlation table removes a pending entry when the
matching response is processed by the receive loop (for an id that is not
pending, nothing was stored in the first place), but a timed-out call's
entry is *not* removed: the only table effect of `get_game_state` /
`get_level_data` is the registration, which leaves the entry present. -/
theorem pending_removed_on_response_only :
    (∀ (s : ConnState) (m : WireMsg),
        alookup (processMsg s m).pending m.id = none) ∧
      (∀ (s : ConnState) (rid : String) (c : ℕ),
        alookup (registerRequest s rid c).pending rid = some c) := by
  constructor
  · intro s m
    unfold processMsg
    cases h : alookup s.pending m.id with
    | none => simpa using h
    | some c => simpa using alookup_filter_ne s.pending m.id
  · intro s rid c
    exact alookup_aput s.pending rid c

/-- C9 counterexample: the claim says the entry is removed on both
outcomes, in particular on timeout.  A `get_state` call registered at wall
clock 0 whose request times out leaves its entry in the table: the call's
only effect on `response_callbacks` is the registration. -/
theorem pending_entry_survives_timeout :
    alookup (registerRequest ⟨[], []⟩ (requestIdAt 0) 1).pending
        (requestIdAt 0) = some 1 ∧
      (some 1 : Option ℕ) ≠ none := by
  exact ⟨alookup_aput [] (requestIdAt 0) 1, by simp⟩

lemma half_lt_iff (k n : ℕ) : ((k : ℚ) > (n : ℚ) * (1 / 2)) ↔ 2 * k > n := by
  rw [gt_iff_lt, gt_iff_lt]
  constructor
  · intro h
    have h2 : (n : ℚ) < 2 * (k : ℚ) := by linarith
    exact_mod_cast h2
  · intro h
    have h2 : (n : ℚ) < 2 * (k : ℚ) := by exact_mod_cast h
    linarith

lemma rdShouldStopTest_iff (d : RealtimeDetector) :
    rdShouldStopTest d = true ↔
      2 * d.agentStates.countP
          (fun kv => decide (kv.2.stuckDuration > d.stuckThreshold)) >
        d.agentStates.length := by
  rw [rdShouldStopTest, decide_eq_true_eq]
  exact half_lt_iff _ _

lemma shouldStopTest_iff (e : AnalyticsEngine) (currentTime : ℚ)
    (hkeys : e.agentPositions.map Prod.fst = e.agentStuckTimes.map Prod.fst) :
    shouldStopTest e currentTime = true ↔
      2 * e.agentStuckTimes.countP
          (fun kv => decide (currentTime - kv.2 > e.stuckThreshold)) >
        e.agentStuckTimes.length := by
  have hlen : e.agentPositions.length = e.agentStuckTimes.length := by
    have := congrArg List.length hkeys
    simpa using this
  by_cases hp : e.agentPositions = []
  · have hs : e.agentStuckTimes = [] := by
      have : e.agentStuckTimes.map Prod.fst = [] := by rw [← hkeys, hp]; rfl
      exact List.map_eq_nil_iff.mp this
    simp [shouldStopTest, hp, hs]
  · rw [shouldStopTest, if_neg hp, decide_eq_true_eq, hlen]
    exact half_lt_iff _ _

/-- C5: both stop signals return true exactly when strictly more than half
of the tracked agents count as stuck, and therefore false at exactly one
half.  For `RealtimeDetector.should_stop_test` an agent counts as stuck
when its stored `stuck_duration` strictly exceeds the threshold; for
`AnalyticsEngine.should_stop_test` (whose position and stuck-time tables
always hold the same agents, which is the stated hypothesis) an agent
counts as stuck when `current_time - stuck_time` strictly exceeds the
threshold at call time. -/
theorem stop_test_strict_majority :
    (∀ d : RealtimeDetector,
        (rdShouldStopTest d = true ↔
            2 * d.agentStates.countP
                (fun kv => decide (kv.2.stuckDuration > d.stuckThreshold)) >
              d.agentStates.length) ∧
          (2 * d.agentStates.countP
                (fun kv => decide (kv.2.stuckDuration > d.stuckThreshold)) =
              d.agentStates.length → rdShouldStopTest d = false)) ∧
      (∀ (e : AnalyticsEngine) (currentTime : ℚ),
        e.agentPositions.map Prod.fst = e.agentStuckTimes.map Prod.fst →
          (shouldStopTest e currentTime = true ↔
              2 * e.agentStuckTimes.countP
                  (fun kv => decide (currentTime - kv.2 > e.stuckThreshold)) >
                e.agentStuckTimes.length) ∧
            (2 * e.agentStuckTimes.countP
                  (fun kv => decide (currentTime - kv.2 > e.stuckThreshold)) =
                e.agentStuckTimes.length →
              shouldStopTest e currentTime = false)) := by
  constructor
  · intro d
    refine ⟨rdShouldStopTest_iff d, fun heq => ?_⟩
    rw [← Bool.not_eq_true]
    intro htrue
    have := (rdShouldStopTest_iff d).mp htrue
    omega
  · intro e currentTime hkeys
    refine ⟨shouldStopTest_iff e currentTime hkeys, fun heq => ?_⟩
    rw [← Bool.not_eq_true]
    intro htrue
    have := (shouldStopTest_iff e currentTime hkeys).mp htrue
    omega

/-- C10: with no position sample ever recorded, neither stop signal fires:
an empty table is never reported as a stuck majority, and the check is
total on the empty case.  In particular both freshly constructed detectors
answer false at every call time. -/
theorem stop_test_empty_false :
    (∀ (e : AnalyticsEngine) (currentTime : ℚ),
        e.agentPositions = [] → shouldStopTest e currentTime = false) ∧
      (∀ d : RealtimeDetector,
        d.agentStates = [] → rdShouldStopTest d = false) ∧
      (∀ currentTime : ℚ, shouldStopTest initEngine currentTime = false) ∧
      rdShouldStopTest (initDetector 30) = false := by
  have h1 : ∀ (e : AnalyticsEngine) (currentTime : ℚ),
      e.agentPositions = [] → shouldStopTest e currentTime = false := by
    intro e currentTime hp
    simp [shouldStopTest, hp]
  have h2 : ∀ d : RealtimeDetector,
      d.agentStates = [] → rdShouldStopTest d = false := by
    intro d hs
    rw [← Bool.not_eq_true, rdShouldStopTest_iff, hs]
    simp
  exact ⟨h1, h2, fun currentTime => h1 initEngine currentTime rfl,
    h2 (initDetector 30) rfl⟩

/-- Witness for C3: a run whose single agent only jumps (no progression
record, so `get_results` succeeds) does return, with one entry for its one
configured agent. -/
theorem run_playtesting_raises_on_progression_witness :
    ([(⟨0, [LogEntry.act "jump"]⟩ : AgentResult)]).length =
      [[TickOutcome.ok "jump"]].length :=
  run_playtesting_raises_on_progression.2.2 (fun _ => 0)
    [[TickOutcome.ok "jump"]] [⟨0, [LogEntry.act "jump"]⟩] rfl

/-- Witness for C5: with both tracked agents stuck for longer than the
threshold at call time 40, the analytics stop signal fires. -/
theorem stop_test_strict_majority_witness :
    shouldStopTest
        ⟨[], [], [], [(0, ((0 : ℚ), (0 : ℚ), (0 : ℚ))), (1, ((1 : ℚ), (0 : ℚ), (0 : ℚ)))],
          [(0, (0 : ℚ)), (1, (5 : ℚ))], 30, []⟩ 40 = true := by
  apply (stop_test_strict_majority.2
    ⟨[], [], [], [(0, ((0 : ℚ), (0 : ℚ), (0 : ℚ))), (1, ((1 : ℚ), (0 : ℚ), (0 : ℚ)))],
      [(0, (0 : ℚ)), (1, (5 : ℚ))], 30, []⟩ 40 rfl).1.mpr
  norm_num [List.countP_cons, List.countP_nil]

/-- Witness for C10: the freshly constructed engine and detector answer
false. -/
theorem stop_test_empty_false_witness :
    shouldStopTest initEngine 5 = false ∧
      rdShouldStopTest (initDetector 30) = false :=
  ⟨stop_test_empty_false.1 initEngine 5 rfl,
    stop_test_empty_false.2.1 (initDetector 30) rfl⟩

lemma ceEngine_step1 :
    checkAgentMovement initEngine 0 (ceP 0) (ceT 0) =
      ⟨[], [], [], [(0, ceP 0)], [(0, ceT 0)], 30, []⟩ := by
  rfl

lemma ceEngine_step2 :
    checkAgentMovement (⟨[], [], [], [(0, ceP 0)], [(0, ceT 0)], 30, []⟩ :
        AnalyticsEngine) 0 (ceP 1) (ceT 1) =
      ⟨[], [], [], [(0, ceP 0)], [(0, ceT 0)], 30, []⟩ := by
  have hd : dist2 (ceP 1) (ceP 0) < 1 / 100 := by norm_num [dist2, ceP]
  have hnd : ¬ (ceT 1 - ((alookup [(0, ceT 0)] 0).getD 0) > (30 : ℚ)) := by
    norm_num [ceT, alookup]
  simp only [checkAgentMovement, alookup, if_pos, reduceIte]
  rw [if_pos hd]
  simp only [alookup, reduceIte] at hnd ⊢
  rw [if_neg hnd]

lemma ceEngine_step3 :
    checkAgentMovement (⟨[], [], [], [(0, ceP 0)], [(0, ceT 0)], 30, []⟩ :
        AnalyticsEngine) 0 (ceP 2) (ceT 2) =
      ⟨[], [], [], [(0, ceP 0)], [(0, ceT 0)], 30, [⟨0, ceP 2, 31, 31⟩]⟩ := by
  have hd : dist2 (ceP 2) (ceP 0) < 1 / 100 := by norm_num [dist2, ceP]
  have hgt : ceT 2 - ((alookup [(0, ceT 0)] 0).getD 0) > (30 : ℚ) := by
    norm_num [ceT, alookup]
  simp only [checkAgentMovement, alookup, reduceIte]
  rw [if_pos hd]
  simp only [alookup, reduceIte] at hgt ⊢
  rw [if_pos hgt]
  norm_num [ceT]

lemma specStuckAccum_ce_tail (i : ℕ) : specStuckAccum ceT ceP (i + 2) = 0 := by
  induction i with
  | zero =>
      rw [specStuckAccum, if_neg (by norm_num [dist2, ceP])]
  | succ n ih =>
      rw [specStuckAccum, if_pos (by norm_num [dist2, ceP]), ih]
      norm_num [ceT]

lemma specStuckAccum_ce_le (i : ℕ) : specStuckAccum ceT ceP i ≤ 30 := by
  match i with
  | 0 => norm_num [specStuckAccum]
  | 1 =>
      rw [specStuckAccum, if_pos (by norm_num [dist2, ceP])]
      norm_num [specStuckAccum, ceT]
  | n + 2 =>
      rw [specStuckAccum_ce_tail]
      norm_num

/-- C4 counterexample: `AnalyticsEngine._check_agent_movement` violates the
claim.  On the three samples `(0, origin)`, `(1, x = 0.05)`,
`(31, x = -0.05)` of agent 0 the engine emits a `soft_lock` anomaly with
duration 31 (it measures against the reference position stored at the last
reset, which stays the origin), although the claim-side accumulated time
below epsilon — measured between consecutive samples, and reset at sample 2
whose displacement 0.1 equals epsilon — never exceeds the 30-second
threshold at any sample. -/
theorem analytics_soft_lock_counterexample :
    ceEngine.anomalies = [⟨0, ceP 2, 31, 31⟩] ∧
      ceEngine.stuckThreshold = 30 ∧
      ∀ i : ℕ, specStuckAccum ceT ceP i ≤ 30 := by
  refine ⟨?_, ?_, specStuckAccum_ce_le⟩
  · rw [ceEngine, ceEngine_step1, ceEngine_step2, ceEngine_step3]
  · rw [ceEngine, ceEngine_step1, ceEngine_step2, ceEngine_step3]

/-- C6 counterexample: the claim computes `actionsPerSecond =
totalActions / totalTime` whenever `totalTime > 0`, but the code divides by
`max(1, total_time)`.  For an agent with 2 actions 0.5 seconds apart the
code returns 2 actions per second while the claimed formula gives 4. -/
theorem agent_metrics_counterexample :
    (getAgentMetrics metricsEngine 0).totalTime = 1 / 2 ∧
      (getAgentMetrics metricsEngine 0).totalTime > 0 ∧
      (getAgentMetrics metricsEngine 0).actionsPerSecond = 2 ∧
      ((getAgentMetrics metricsEngine 0).totalActions : ℚ) /
          (getAgentMetrics metricsEngine 0).totalTime = 4 ∧
      (2 : ℚ) ≠ 4 := by
  refine ⟨?_, ?_, ?_, ?_, by norm_num⟩ <;>
    norm_num [getAgentMetrics, metricsEngine, alookup]

/-- C6 (amended): `get_agent_metrics` returns
`engagementRate = highEngagementActions / max(1, totalActions)`,
`totalTime = lastTimestamp - firstTimestamp` over the agent's action
records (0 when there are none), and
`actionsPerSecond = totalActions / max(1, totalTime)` when `totalTime > 0`
and 0 when `totalTime ≤ 0` — which agrees with the claimed
`totalActions / totalTime` whenever `totalTime ≥ 1`, but not on
sub-second histories (see the counterexample). -/
theorem agent_metrics_formulas (e : AnalyticsEngine) (aid : ℕ) :
    (getAgentMetrics e aid).engagementRate =
        ((getAgentMetrics e aid).highEngagementActions : ℚ) /
          max 1 ((getAgentMetrics e aid).totalActions : ℚ) ∧
      ((alookup e.agentsData aid).getD [] = [] →
        (getAgentMetrics e aid).totalTime = 0) ∧
      (∀ f l : ActionRecord,
        ((alookup e.agentsData aid).getD []).head? = some f →
        ((alookup e.agentsData aid).getD []).getLast? = some l →
        (getAgentMetrics e aid).totalTime = l.ts - f.ts) ∧
      ((getAgentMetrics e aid).totalTime ≤ 0 →
        (getAgentMetrics e aid).actionsPerSecond = 0) ∧
      ((getAgentMetrics e aid).totalTime > 0 →
        (getAgentMetrics e aid).actionsPerSecond =
          ((getAgentMetrics e aid).totalActions : ℚ) /
            max 1 (getAgentMetrics e aid).totalTime) ∧
      (1 ≤ (getAgentMetrics e aid).totalTime →
        (getAgentMetrics e aid).actionsPerSecond =
          ((getAgentMetrics e aid).totalActions : ℚ) /
            (getAgentMetrics e aid).totalTime) := by
  refine ⟨?_, ?_, ?_, ?_, ?_, ?_⟩
  · show ((_ : ℕ) : ℚ) / ((max 1 _ : ℕ) : ℚ) = _
    rw [Nat.cast_max, Nat.cast_one]
    rfl
  · intro hempty
    simp only [getAgentMetrics, hempty]
    rfl
  · intro f l hf hl
    simp only [getAgentMetrics, hf, hl]
  · intro hle
    simp only [getAgentMetrics] at hle ⊢
    rw [if_neg (not_lt.mpr hle)]
  · intro hgt
    simp only [getAgentMetrics] at hgt ⊢
    rw [if_pos hgt]
  · intro hge
    have hgt : (getAgentMetrics e aid).totalTime > 0 := lt_of_lt_of_le one_pos hge
    have hmax : max 1 (getAgentMetrics e aid).totalTime =
        (getAgentMetrics e aid).totalTime := max_eq_right hge
    simp only [getAgentMetrics] at hgt hmax ⊢
    rw [if_pos hgt, hmax]

/-- Witness for C6: on the counterexample engine the amended formula holds
with `totalTime = 1/2 > 0`. -/
theorem agent_metrics_formulas_witness :
    (getAgentMetrics metricsEngine 0).actionsPerSecond =
      ((getAgentMetrics metricsEngine 0).totalActions : ℚ) /
        max 1 (getAgentMetrics metricsEngine 0).totalTime :=
  (agent_metrics_formulas metricsEngine 0).2.2.2.2.1
    (by norm_num [getAgentMetrics, metricsEngine, alookup])

lemma mem_aput {α β : Type} [DecidableEq α] (l : List (α × β)) (a : α)
    (b : β) (kv : α × β) (h : kv ∈ aput l a b) : kv ∈ l ∨ kv = (a, b) := by
  unfold aput at h
  by_cases hmem : (alookup l a).isSome = true
  · rw [if_pos hmem] at h
    obtain ⟨kv0, hkv0, heq⟩ := List.mem_map.mp h
    by_cases hk : kv0.1 = a
    · rw [if_pos hk] at heq
      right
      exact heq.symm
    · rw [if_neg hk] at heq
      left
      exact heq ▸ hkv0
  · rw [if_neg hmem] at h
    rcases List.mem_append.mp h with h1 | h2
    · left; exact h1
    · right; simpa using h2

lemma alookup_mem {α β : Type} [DecidableEq α] :
    ∀ (l : List (α × β)) (a : α) (b : β), alookup l a = some b → (a, b) ∈ l := by
  intro l a b
  induction l with
  | nil => intro h; simp [alookup] at h
  | cons kv rest ih =>
      obtain ⟨k, v⟩ := kv
      intro h
      by_cases hk : k = a
      · rw [alookup, if_pos hk] at h
        obtain rfl := hk
        obtain rfl : v = b := by simpa using h
        exact List.mem_cons_self _ _
      · rw [alookup, if_neg hk] at h
        exact List.mem_cons_of_mem _ (ih h)

lemma connFold_inv (Q : String → ℕ → Prop) :
    ∀ (evs : List ConnEvent) (s : ConnState),
      (∀ kv ∈ s.pending, Q kv.1 kv.2) →
      (∀ cm ∈ s.delivered, Q cm.2.id cm.1) →
      (∀ rid c, ConnEvent.register rid c ∈ evs → Q rid c) →
      (∀ kv ∈ (evs.foldl connStep s).pending, Q kv.1 kv.2) ∧
        (∀ cm ∈ (evs.foldl connStep s).delivered, Q cm.2.id cm.1) := by
  intro evs
  induction evs with
  | nil => intro s hp hd _; exact ⟨hp, hd⟩
  | cons ev rest ih =>
      intro s hp hd hev
      rw [List.foldl_cons]
      rcases ev with ⟨rid, c⟩ | ⟨m⟩
      · apply ih
        · intro kv hkv
          rcases mem_aput s.pending rid c kv hkv with h1 | h2
          · exact hp kv h1
          · rw [h2]
            exact hev rid c (List.mem_cons_self _ _)
        · exact hd
        · intro rid2 c2 h2
          exact hev rid2 c2 (List.mem_cons_of_mem _ h2)
      · cases halk : alookup s.pending m.id with
        | none =>
            rw [show connStep s (ConnEvent.inbound m) = s from by
              simp [connStep, processMsg, halk]]
            exact ih s hp hd
              (fun rid2 c2 h2 => hev rid2 c2 (List.mem_cons_of_mem _ h2))
        | some c =>
            rw [show connStep s (ConnEvent.inbound m) =
                ⟨s.pending.filter (fun kv => decide (kv.1 ≠ m.id)),
                  s.delivered ++ [(c, m)]⟩ from by
              simp [connStep, processMsg, halk]]
            apply ih
            · intro kv hkv
              exact hp kv (List.mem_of_mem_filter hkv)
            · intro cm hcm
              rcases List.mem_append.mp hcm with h1 | h2
              · exact hd cm h1
              · have hcmeq : cm = (c, m) := by simpa using h2
                rw [hcmeq]
                exact hp (m.id, c) (alookup_mem s.pending m.id c halk)
            · intro rid2 c2 h2
              exact hev rid2 c2 (List.mem_cons_of_mem _ h2)

/-- C2 (amended): `get_game_state` never raises — it is a total function of
the call — and (i) the default it returns carries the eight fixed fields of
the claim; (ii) it returns that default when the queue stays empty past the
deadline or the first queued response arrived too late; (iii) it returns
the response's state payload when a response with the call's id is
delivered in time and carries one; and (iv) as long as concurrent in-flight
requests hold *distinct* request ids, any message delivered to a caller's
queue matches a registration that this very caller made — responses are
never handed to a caller that did not register the id.  (The ids are built
from the microsecond clock and can collide; see the counterexample for a
misdelivery in that case.) -/
theorem get_state_timeout_default_and_correlation :
    (∀ now : ℚ,
        (defaultGameState now).position = (0, 0, 0) ∧
          (defaultGameState now).health = 100 ∧
          (defaultGameState now).inCombat = false ∧
          (defaultGameState now).currentObjective = none ∧
          (defaultGameState now).levelProgress = 0 ∧
          (defaultGameState now).isDead = false ∧
          (defaultGameState now).currentArea = "unknown" ∧
          (defaultGameState now).puzzleActive = false) ∧
      (∀ (t timeout : ℚ) (sendOk : Bool),
        getGameStateResult t timeout sendOk [] = defaultGameState t) ∧
      (∀ (t timeout : ℚ) (sendOk : Bool) (ta : ℚ) (m : WireMsg)
          (rest : List (ℚ × WireMsg)), ¬ ta < t + timeout →
        getGameStateResult t timeout sendOk ((ta, m) :: rest) =
          defaultGameState t) ∧
      (∀ (t timeout ta : ℚ) (d : UnityState) (m : WireMsg)
          (rest : List (ℚ × WireMsg)), ta < t + timeout → m.data = some d →
        getGameStateResult t timeout true ((ta, m) :: rest) = d) ∧
      (∀ evs : List ConnEvent, (regIds evs).Nodup →
        ∀ (c : ℕ) (m : WireMsg), (c, m) ∈ (connRun evs).delivered →
          ConnEvent.register m.id c ∈ evs) := by
  refine ⟨fun now => ⟨rfl, rfl, rfl, rfl, rfl, rfl, rfl, rfl⟩, ?_, ?_, ?_, ?_⟩
  · intro t timeout sendOk
    cases sendOk <;> rfl
  · intro t timeout sendOk ta m rest hlate
    cases sendOk
    · rfl
    · show (if (true = false) then _ else _) = _
      rw [if_neg (by simp)]
      show (if ta < t + timeout then _ else _) = _
      rw [if_neg hlate]
  · intro t timeout ta d m rest hin hdata
    show (if (true = false) then _ else _) = _
    rw [if_neg (by simp)]
    show (if ta < t + timeout then _ else _) = _
    rw [if_pos hin, hdata]
  · intro evs _ c m hmem
    have h := connFold_inv (fun rid c0 => ConnEvent.register rid c0 ∈ evs) evs
      ⟨[], []⟩ (by intro kv hkv; simp at hkv) (by intro cm hcm; simp at hcm)
      (fun rid c0 hr => hr)
    exact h.2 (c, m) hmem

/-- C2 counterexample: request ids come from the microsecond wall clock,
so two calls issued within the same microsecond (here wall times 0 and
1/2000000 seconds) receive the *same* request id; the second registration
overwrites the first in `response_callbacks`, and the response produced
for the first caller's request is then appended to the second caller's
queue, while the second response is dropped and the first caller receives
nothing at all — the claim that responses of concurrent in-flight requests
are never delivered to the wrong caller fails. -/
theorem get_state_misdelivery_counterexample :
    requestIdNum 0 =
        requestIdNum (Rat.mk' 1 2000000 (by norm_num) (by simp)) ∧
      (0 : ℚ) ≠ Rat.mk' 1 2000000 (by norm_num) (by simp) ∧
      (connRun
          [ConnEvent.register "req_0" 1, ConnEvent.register "req_0" 2,
            ConnEvent.inbound
              ⟨"req_0", some ⟨(1, 1, 1), 50, true, none, 0, 0, false, "cave", false⟩⟩,
            ConnEvent.inbound
              ⟨"req_0", some ⟨(2, 2, 2), 80, false, none, 0, 0, false, "lake", false⟩⟩]).delivered =
        [(2, ⟨"req_0", some ⟨(1, 1, 1), 50, true, none, 0, 0, false, "cave", false⟩⟩)] := by
  refine ⟨by decide, ?_, by decide⟩
  intro h
  have hnum := congrArg Rat.num h
  simp [Rat.mk'] at hnum

/-- Witness for C2: a response delivered 5 seconds into a 30-second window
is returned as the call's result, and in a distinct-id trace the one
delivery goes to the caller that registered the id. -/
theorem get_state_correlation_witness :
    getGameStateResult 0 30 true
        [(5, ⟨"req_9", some (defaultGameState 3)⟩)] = defaultGameState 3 ∧
      ConnEvent.register "req_9" 4 ∈
        [ConnEvent.register "req_9" 4, ConnEvent.inbound ⟨"req_9", none⟩] := by
  constructor
  · exact get_state_timeout_default_and_correlation.2.2.2.1 0 30 5
      (defaultGameState 3) ⟨"req_9", some (defaultGameState 3)⟩ []
      (by norm_num) rfl
  · exact get_state_timeout_default_and_correlation.2.2.2.2
      [ConnEvent.register "req_9" 4, ConnEvent.inbound ⟨"req_9", none⟩]
      (by decide) 4 ⟨"req_9", none⟩ (by decide)

lemma mem_insertWindow {ks : List ℤ} {w x : ℤ} :
    x ∈ insertWindow ks w ↔ x ∈ ks ∨ x = w := by
  unfold insertWindow
  by_cases h : w ∈ ks
  · rw [if_pos h]
    constructor
    · exact Or.inl
    · rintro (hx | rfl)
      · exact hx
      · exact h
  · rw [if_neg h]
    simp

lemma nodup_insertWindow {ks : List ℤ} (h : ks.Nodup) (w : ℤ) :
    (insertWindow ks w).Nodup := by
  unfold insertWindow
  by_cases hw : w ∈ ks
  · rw [if_pos hw]
    exact h
  · rw [if_neg hw]
    rw [List.nodup_append]
    refine ⟨h, List.nodup_singleton w, ?_⟩
    intro a ha hb
    rw [List.mem_singleton] at hb
    exact hw (hb ▸ ha)

lemma windowKeys_foldl_mem (l : List GEvent) :
    ∀ (ks : List ℤ) (x : ℤ),
      x ∈ l.foldl (fun ks e => insertWindow ks (windowOf e.ts)) ks ↔
        x ∈ ks ∨ ∃ e ∈ l, windowOf e.ts = x := by
  induction l with
  | nil => intro ks x; simp
  | cons e rest ih =>
      intro ks x
      rw [List.foldl_cons, ih, mem_insertWindow]
      constructor
      · rintro ((hx | rfl) | he)
        · exact Or.inl hx
        · exact Or.inr ⟨e, List.mem_cons_self _ _, rfl⟩
        · obtain ⟨e2, he2, hw⟩ := he
          exact Or.inr ⟨e2, List.mem_cons_of_mem _ he2, hw⟩
      · rintro (hx | ⟨e2, he2, hw⟩)
        · exact Or.inl (Or.inl hx)
        · rcases List.mem_cons.mp he2 with rfl | h3
          · exact Or.inl (Or.inr hw.symm)
          · exact Or.inr ⟨e2, h3, hw⟩

lemma windowKeys_foldl_nodup (l : List GEvent) :
    ∀ ks : List ℤ, ks.Nodup →
      (l.foldl (fun ks e => insertWindow ks (windowOf e.ts)) ks).Nodup := by
  induction l with
  | nil => intro ks h; exact h
  | cons e rest ih =>
      intro ks h
      rw [List.foldl_cons]
      exact ih _ (nodup_insertWindow h _)

lemma mem_windowKeys {l : List GEvent} {x : ℤ} :
    x ∈ windowKeys l ↔ ∃ e ∈ l, windowOf e.ts = x := by
  rw [windowKeys, windowKeys_foldl_mem]
  simp

lemma nodup_windowKeys (l : List GEvent) : (windowKeys l).Nodup :=
  windowKeys_foldl_nodup l [] List.nodup_nil

lemma windowKeys_perm {l1 l2 : List GEvent} (h : l1.Perm l2) :
    (windowKeys l1).Perm (windowKeys l2) := by
  apply (List.perm_ext_iff_of_nodup (nodup_windowKeys l1)
    (nodup_windowKeys l2)).mpr
  intro a
  rw [mem_windowKeys, mem_windowKeys]
  constructor
  · rintro ⟨e, he, hw⟩
    exact ⟨e, h.mem_iff.mp he, hw⟩
  · rintro ⟨e, he, hw⟩
    exact ⟨e, h.mem_iff.mpr he, hw⟩

lemma windowKeys_toFinset (l : List GEvent) :
    (windowKeys l).toFinset = specWindows l := by
  ext x
  rw [List.mem_toFinset, mem_windowKeys, specWindows, List.mem_toFinset,
    List.mem_map]

lemma rateIn_eq_countP (l : List GEvent) (w : ℤ) :
    rateIn l w = l.countP (fun e => decide (windowOf e.ts = w)) := by
  rw [rateIn, retriesIn, deathsIn]
  induction l with
  | nil => rfl
  | cons e rest ih =>
      rw [List.countP_cons, List.countP_cons, List.countP_cons]
      have hite :
          (if (decide (e.kind = EventKind.retry ∧ windowOf e.ts = w)) = true
              then 1 else 0) +
            (if (decide (e.kind = EventKind.death ∧ windowOf e.ts = w)) = true
              then 1 else 0) =
          (if (decide (windowOf e.ts = w)) = true then 1 else 0) := by
        cases hk : e.kind <;> by_cases hw : windowOf e.ts = w <;>
          simp [hk, hw]
      omega

lemma rateIn_pos {l : List GEvent} {w : ℤ} (h : ∃ e ∈ l, windowOf e.ts = w) :
    1 ≤ rateIn l w := by
  obtain ⟨e, he, hw⟩ := h
  rw [rateIn_eq_countP]
  have : 0 < l.countP (fun e => decide (windowOf e.ts = w)) :=
    List.countP_pos_iff.mpr ⟨e, he, by simpa using hw⟩
  omega

lemma le_sum_of_all_one_le (ks : List ℤ) (f : ℤ → ℚ)
    (h : ∀ w ∈ ks, 1 ≤ f w) : (ks.length : ℚ) ≤ (ks.map f).sum := by
  induction ks with
  | nil => simp
  | cons w rest ih =>
      rw [List.map_cons, List.sum_cons, List.length_cons]
      push_cast
      have h1 := h w (List.mem_cons_self _ _)
      have h2 := ih (fun x hx => h x (List.mem_cons_of_mem _ hx))
      linarith

lemma avg_eq_specMean (l : List GEvent) :
    ((windowKeys l).map (fun w => (rateIn l w : ℚ))).sum /
        ((windowKeys l).length : ℚ) = specMean l := by
  rw [specMean, ← windowKeys_toFinset,
    List.sum_toFinset _ (nodup_windowKeys l),
    List.toFinset_card_of_nodup (nodup_windowKeys l)]

lemma one_le_specMean {l : List GEvent} (hne : windowKeys l ≠ []) :
    1 ≤ specMean l := by
  rw [← avg_eq_specMean]
  have hlen : 0 < (windowKeys l).length := List.length_pos.mpr hne
  have hlenq : (0 : ℚ) < ((windowKeys l).length : ℚ) := by exact_mod_cast hlen
  rw [le_div_iff₀ hlenq, one_mul]
  apply le_sum_of_all_one_le
  intro w hw
  have := rateIn_pos (mem_windowKeys.mp hw)
  exact_mod_cast this

lemma difficultySpikes_eq (l : List GEvent) (hne : windowKeys l ≠ []) :
    difficultySpikes l =
      ((windowKeys l).filter
          (fun w => decide ((rateIn l w : ℚ) > specMean l * (3 / 2)))).map
        (fun w =>
          ⟨w * 30, w * 30 + 30, retriesIn l w, deathsIn l w,
            (rateIn l w : ℚ) / specMean l⟩) := by
  have hmax : max 1 (specMean l) = specMean l := max_eq_right (one_le_specMean hne)
  simp only [difficultySpikes, if_neg hne, avg_eq_specMean, hmax]

lemma scenario_windowKeys : windowKeys scenarioEvents = [0, 1] := by decide

lemma scenario_rate0 : rateIn scenarioEvents 0 = 12 := by decide

lemma scenario_rate1 : rateIn scenarioEvents 1 = 2 := by decide

lemma scenario_specMean : specMean scenarioEvents = 7 := by
  rw [← avg_eq_specMean, scenario_windowKeys]
  simp [scenario_rate0, scenario_rate1]
  norm_num

lemma scenario_spikes :
    difficultySpikes scenarioEvents = [⟨0, 30, 10, 2, 12 / 7⟩] := by
  have hne : windowKeys scenarioEvents ≠ [] := by
    rw [scenario_windowKeys]
    simp
  rw [difficultySpikes_eq _ hne, scenario_windowKeys, scenario_specMean]
  have hc0 : (decide ((rateIn scenarioEvents 0 : ℚ) > (7 : ℚ) * (3 / 2))) =
      true := by
    rw [scenario_rate0]
    norm_num
  have hc1 : (decide ((rateIn scenarioEvents 1 : ℚ) > (7 : ℚ) * (3 / 2))) =
      false := by
    rw [scenario_rate1]
    norm_num
  rw [List.filter_cons, List.filter_cons, List.filter_nil]
  rw [hc0, hc1]
  simp only [if_true, if_false, List.map_cons, List.map_nil]
  have hr0 : retriesIn scenarioEvents 0 = 10 := by decide
  have hd0 : deathsIn scenarioEvents 0 = 2 := by decide
  rw [hr0, hd0, scenario_rate0]
  norm_num

/-- C7: the difficulty analysis reports exactly the non-empty 30-second
windows whose retry-plus-death total strictly exceeds 1.5 times the mean
taken over non-empty windows only, each reported with
`severity = (retries + deaths) / mean` and the time range
`[w * 30, w * 30 + 30)`; on the scenario log — 12 events in `[0, 30)` and
2 in `[30, 60)` — the mean is 7, window `[0, 30)` is the only one flagged
(12 > 10.5 but 2 ≤ 10.5), with severity 12/7.  (The source divides the
severity by `max(1, mean)`, which equals the mean because every non-empty
window totals at least one event.) -/
theorem difficulty_spikes_exact :
    (∀ (l : List GEvent) (w : ℤ),
        (∃ s ∈ difficultySpikes l, s.startTime = w * 30) ↔
          ((∃ e ∈ l, windowOf e.ts = w) ∧
            (rateIn l w : ℚ) > specMean l * (3 / 2))) ∧
      (∀ (l : List GEvent) (s : DifficultySpike), s ∈ difficultySpikes l →
        s.severity = ((s.retryCount + s.deathCount : ℕ) : ℚ) / specMean l ∧
          s.endTime = s.startTime + 30) ∧
      difficultySpikes scenarioEvents = [⟨0, 30, 10, 2, 12 / 7⟩] ∧
      specMean scenarioEvents = 7 := by
  refine ⟨?_, ?_, scenario_spikes, scenario_specMean⟩
  · intro l w
    constructor
    · rintro ⟨s, hs, hst⟩
      by_cases hne : windowKeys l = []
      · rw [difficultySpikes, if_pos hne] at hs
        simp at hs
      · rw [difficultySpikes_eq l hne] at hs
        obtain ⟨w2, hw2, rfl⟩ := List.mem_map.mp hs
        have hww : w2 = w := by
          have h30 : w2 * 30 = w * 30 := hst
          omega
        obtain ⟨hmem, hcond⟩ := List.mem_filter.mp hw2
        subst hww
        exact ⟨mem_windowKeys.mp hmem, by simpa using hcond⟩
    · rintro ⟨hex, hrate⟩
      have hw : w ∈ windowKeys l := mem_windowKeys.mpr hex
      have hne : windowKeys l ≠ [] := List.ne_nil_of_mem hw
      rw [difficultySpikes_eq l hne]
      refine ⟨⟨w * 30, w * 30 + 30, retriesIn l w, deathsIn l w,
        (rateIn l w : ℚ) / specMean l⟩, ?_, rfl⟩
      apply List.mem_map.mpr
      exact ⟨w, List.mem_filter.mpr ⟨hw, by simpa using hrate⟩, rfl⟩
  · intro l s hs
    by_cases hne : windowKeys l = []
    · rw [difficultySpikes, if_pos hne] at hs
      simp at hs
    · rw [difficultySpikes_eq l hne] at hs
      obtain ⟨w2, _, rfl⟩ := List.mem_map.mp hs
      exact ⟨rfl, rfl⟩

/-- Witness for C7: the severity formula instantiated on the scenario's
flagged window. -/
theorem difficulty_spikes_exact_witness :
    DifficultySpike.severity ⟨0, 30, 10, 2, 12 / 7⟩ =
      ((10 + 2 : ℕ) : ℚ) / specMean scenarioEvents := by
  have hmem : (⟨0, 30, 10, 2, 12 / 7⟩ : DifficultySpike) ∈
      difficultySpikes scenarioEvents := by
    rw [difficulty_spikes_exact.2.2.1]
    exact List.mem_singleton.mpr rfl
  exact (difficulty_spikes_exact.2.1 scenarioEvents _ hmem).1

lemma permA_spikes_start :
    (difficultySpikes permEventsA).map DifficultySpike.startTime = [0, 30] := by
  have hks : windowKeys permEventsA = [0, 1, 2, 3] := by decide
  have hne : windowKeys permEventsA ≠ [] := by
    rw [hks]
    simp
  have h0 : rateIn permEventsA 0 = 4 := by decide
  have h1 : rateIn permEventsA 1 = 4 := by decide
  have h2 : rateIn permEventsA 2 = 1 := by decide
  have h3 : rateIn permEventsA 3 = 1 := by decide
  have hmean : specMean permEventsA = 5 / 2 := by
    rw [← avg_eq_specMean, hks]
    simp [h0, h1, h2, h3]
    norm_num
  rw [difficultySpikes_eq _ hne, hks, hmean]
  have hc0 : (decide ((rateIn permEventsA 0 : ℚ) > (5 / 2 : ℚ) * (3 / 2))) =
      true := by
    rw [h0]
    norm_num
  have hc1 : (decide ((rateIn permEventsA 1 : ℚ) > (5 / 2 : ℚ) * (3 / 2))) =
      true := by
    rw [h1]
    norm_num
  have hc2 : (decide ((rateIn permEventsA 2 : ℚ) > (5 / 2 : ℚ) * (3 / 2))) =
      false := by
    rw [h2]
    norm_num
  have hc3 : (decide ((rateIn permEventsA 3 : ℚ) > (5 / 2 : ℚ) * (3 / 2))) =
      false := by
    rw [h3]
    norm_num
  rw [List.filter_cons, List.filter_cons, List.filter_cons, List.filter_cons,
    List.filter_nil, hc0, hc1, hc2, hc3]
  simp

lemma permB_spikes_start :
    (difficultySpikes permEventsB).map DifficultySpike.startTime = [30, 0] := by
  have hks : windowKeys permEventsB = [1, 0, 2, 3] := by decide
  have hne : windowKeys permEventsB ≠ [] := by
    rw [hks]
    simp
  have h0 : rateIn permEventsB 0 = 4 := by decide
  have h1 : rateIn permEventsB 1 = 4 := by decide
  have h2 : rateIn permEventsB 2 = 1 := by decide
  have h3 : rateIn permEventsB 3 = 1 := by decide
  have hmean : specMean permEventsB = 5 / 2 := by
    rw [← avg_eq_specMean, hks]
    simp [h0, h1, h2, h3]
    norm_num
  rw [difficultySpikes_eq _ hne, hks, hmean]
  have hc0 : (decide ((rateIn permEventsB 0 : ℚ) > (5 / 2 : ℚ) * (3 / 2))) =
      true := by
    rw [h0]
    norm_num
  have hc1 : (decide ((rateIn permEventsB 1 : ℚ) > (5 / 2 : ℚ) * (3 / 2))) =
      true := by
    rw [h1]
    norm_num
  have hc2 : (decide ((rateIn permEventsB 2 : ℚ) > (5 / 2 : ℚ) * (3 / 2))) =
      false := by
    rw [h2]
    norm_num
  have hc3 : (decide ((rateIn permEventsB 3 : ℚ) > (5 / 2 : ℚ) * (3 / 2))) =
      false := by
    rw [h3]
    norm_num
  rw [List.filter_cons, List.filter_cons, List.filter_cons, List.filter_cons,
    List.filter_nil, hc1, hc0, hc2, hc3]
  simp

/-- C8 counterexample: the two logs hold the same events (they are
permutations of each other), yet `analyze_difficulty_spikes` returns
different lists — the reported windows are the same two, but their order
follows the first-occurrence order of the windows in the input, which the
permutation swaps. -/
theorem difficulty_spikes_order_counterexample :
    permEventsA.Perm permEventsB ∧
      (difficultySpikes permEventsA).map DifficultySpike.startTime =
        [0, 30] ∧
      (difficultySpikes permEventsB).map DifficultySpike.startTime =
        [30, 0] ∧
      difficultySpikes permEventsA ≠ difficultySpikes permEventsB := by
  refine ⟨by decide, permA_spikes_start, permB_spikes_start, ?_⟩
  intro h
  have hmaps := congrArg (List.map DifficultySpike.startTime) h
  rw [permA_spikes_start, permB_spikes_start] at hmaps
  exact absurd hmaps (by decide)

/-- C8 (amended): the difficulty analysis is order-independent up to the
order of the returned list: permuting the input event log permutes the
reported spike list (same windows, same counts, same severities), but the
list order itself follows the first-occurrence order of windows and can
change. -/
theorem difficulty_spikes_perm_invariant (l1 l2 : List GEvent)
    (h : l1.Perm l2) :
    (difficultySpikes l1).Perm (difficultySpikes l2) := by
  by_cases hne : windowKeys l1 = []
  · have hpn : List.Perm (windowKeys l2) ([] : List ℤ) := by
      have hk := (windowKeys_perm h).symm
      rw [hne] at hk
      exact hk
    rw [difficultySpikes, if_pos hne, difficultySpikes, if_pos hpn.eq_nil]
  · have hksp := windowKeys_perm h
    have hne2 : windowKeys l2 ≠ [] := by
      intro h2
      rw [h2] at hksp
      exact hne hksp.eq_nil
    have hrr : ∀ w, retriesIn l1 w = retriesIn l2 w := fun w => h.countP_eq _
    have hdd : ∀ w, deathsIn l1 w = deathsIn l2 w := fun w => h.countP_eq _
    have hrate : ∀ w, rateIn l1 w = rateIn l2 w := fun w => by
      rw [rateIn, rateIn, hrr, hdd]
    have hmean : specMean l1 = specMean l2 := by
      rw [specMean, specMean,
        show specWindows l1 = specWindows l2 from
          List.toFinset_eq_of_perm _ _ (h.map _)]
      congr 1
      apply Finset.sum_congr rfl
      intro w _
      rw [hrate]
    rw [difficultySpikes_eq l1 hne, difficultySpikes_eq l2 hne2]
    have hfil : (windowKeys l2).filter
          (fun w => decide ((rateIn l1 w : ℚ) > specMean l1 * (3 / 2))) =
        (windowKeys l2).filter
          (fun w => decide ((rateIn l2 w : ℚ) > specMean l2 * (3 / 2))) :=
      List.filter_congr (fun w _ => by rw [hrate, hmean])
    have step := (hksp.filter
        (fun w => decide ((rateIn l1 w : ℚ) > specMean l1 * (3 / 2)))).map
      (fun w =>
        (⟨w * 30, w * 30 + 30, retriesIn l1 w, deathsIn l1 w,
          (rateIn l1 w : ℚ) / specMean l1⟩ : DifficultySpike))
    rw [hfil] at step
    have hmap : ((windowKeys l2).filter
          (fun w => decide ((rateIn l2 w : ℚ) > specMean l2 * (3 / 2)))).map
          (fun w =>
            (⟨w * 30, w * 30 + 30, retriesIn l1 w, deathsIn l1 w,
              (rateIn l1 w : ℚ) / specMean l1⟩ : DifficultySpike)) =
        ((windowKeys l2).filter
          (fun w => decide ((rateIn l2 w : ℚ) > specMean l2 * (3 / 2)))).map
          (fun w =>
            (⟨w * 30, w * 30 + 30, retriesIn l2 w, deathsIn l2 w,
              (rateIn l2 w : ℚ) / specMean l2⟩ : DifficultySpike)) :=
      List.map_congr_left (fun w _ => by rw [hrr, hdd, hrate, hmean])
    rw [hmap] at step
    exact step

/-- Witness for C8: on the two counterexample logs the amended claim holds:
the spike lists are permutations of each other. -/
theorem difficulty_spikes_perm_invariant_witness :
    (difficultySpikes permEventsA).Perm (difficultySpikes permEventsB) :=
  difficulty_spikes_perm_invariant permEventsA permEventsB (by decide)
